import Mathlib

set_option maxHeartbeats 1000000

/-!
Verification of the hierarchical memory tracker (`be/src/runtime/mem_tracker.h`)
of the StarRocks backend.  The tracker tree is embedded shallowly: the mutable
per-node counters and `_limit` fields form an explicit state, the per-node
wiring (precomputed ancestor chains, registered GC callbacks, optional external
consumption metric) is immutable data, and each member function of `MemTracker`
becomes a state-passing Lean function.  Code that lives in `mem_tracker.cpp` or
`util/runtime_profile.h` (the counter primitive, `Init`, `GcMemory`) is not part
of the provided sources; those definitions are modelled from the specification
and are marked as such in their doc comments.
-/

namespace StarRocks

/-- Tracker identity: one id per `MemTracker` node (standing in for the node's
address). -/
abbrev TrackerId := Nat

/-- Mutable state shared by the tracker tree: each node's consumption counter
value and its `_limit` field (negative means no limit). -/
structure MemState where
  consumption : TrackerId → Int
  limit : TrackerId → Int

/-- Modelled from the spec: `HighWaterMarkCounter::add` — the counter primitive
(`util/runtime_profile.h`) is not among the provided sources.  Sequentially,
`add(delta)` advances the current value by `delta` (spec §4.1).  The high-water
mark is omitted: no claim concerns `peak_consumption`. -/
def MemState.addConsumption (st : MemState) (id : TrackerId) (d : Int) : MemState :=
  { st with consumption := fun j => if j = id then st.consumption j + d else st.consumption j }

/-- Modelled from the spec: `HighWaterMarkCounter::set` (spec §4.1), an
unconditional store, used only by `RefreshConsumptionFromMetric`. -/
def MemState.setConsumption (st : MemState) (id : TrackerId) (v : Int) : MemState :=
  { st with consumption := fun j => if j = id then v else st.consumption j }

/-- The state update performed by `MemTracker::set_limit` (mem_tracker.h
line 299): overwrite the node's `_limit` field. -/
def MemState.setLimit (st : MemState) (id : TrackerId) (l : Int) : MemState :=
  { st with limit := fun j => if j = id then l else st.limit j }

/-- A GC callback: receives `bytes_to_free` and may transform the shared state
(the C++ callbacks are arbitrary closures, typically calling `release`). -/
abbrev GcFn := Int → MemState → MemState

/-- Per-node immutable wiring read by the operations: the registered GC
callbacks (`_gc_functions`) and the optional external consumption metric
(`_consumption_metric`; its current value, read-only for the tracker). -/
structure Env where
  gcFns : TrackerId → List GcFn
  metric : TrackerId → Option Int

/-- A tracker as the member functions see it: its id and the chains precomputed
at construction — `_all_trackers` (self first, root last) and `_limit_trackers`
(mem_tracker.h lines 418-419). -/
structure MemTracker where
  id : TrackerId
  all_trackers : List TrackerId
  limit_trackers : List TrackerId

/-- Modelled from the spec: `MemTracker::Init()` and the constructor
(mem_tracker.cpp is not among the provided sources).  Walking up from the
parent populates `_all_trackers` (self first) and `_limit_trackers` (the
entries whose limit is finite at construction time), per spec §3 and §4.2. -/
def mkTracker (id : TrackerId) (parent : Option MemTracker) (st : MemState) : MemTracker :=
  match parent with
  | none => ⟨id, [id], if 0 ≤ st.limit id then [id] else []⟩
  | some p =>
      ⟨id, id :: p.all_trackers,
        if 0 ≤ st.limit id then id :: p.limit_trackers else p.limit_trackers⟩

/-- `MemTracker::RefreshConsumptionFromMetric` (mem_tracker.h lines 291-295):
`_consumption->set(_consumption_metric->value())`.  Only ever called when the
metric is present, so the `getD` default is dead. -/
def RefreshConsumptionFromMetric (env : Env) (t : MemTracker) (st : MemState) : MemState :=
  st.setConsumption t.id ((env.metric t.id).getD 0)

/-- The ancestor-chain loop shared by `consume` and `release`: add `bytes` to
the counter of every entry of `_all_trackers`, in chain order. -/
def addToAll (l : List TrackerId) (bytes : Int) (st : MemState) : MemState :=
  l.foldl (fun s id => s.addConsumption id bytes) st

/-- Body of `MemTracker::consume` for `bytes > 0` (mem_tracker.h lines
130-140).  In the source, `consume` and `release` call each other on negative
input; the sign flip sends the callee straight to its positive path, so the
mutual call is expanded through these two helpers. -/
def consumeCore (env : Env) (t : MemTracker) (bytes : Int) (st : MemState) : MemState :=
  match env.metric t.id with
  | some _ => RefreshConsumptionFromMetric env t st
  | none => addToAll t.all_trackers bytes st

/-- Body of `MemTracker::release` for `bytes > 0` (mem_tracker.h lines
232-249). -/
def releaseCore (env : Env) (t : MemTracker) (bytes : Int) (st : MemState) : MemState :=
  match env.metric t.id with
  | some _ => RefreshConsumptionFromMetric env t st
  | none => addToAll t.all_trackers (-bytes) st

/-- `MemTracker::consume` (mem_tracker.h lines 125-141). -/
def consume (env : Env) (t : MemTracker) (bytes : Int) (st : MemState) : MemState :=
  if bytes ≤ 0 then
    if bytes < 0 then releaseCore env t (-bytes) st else st
  else consumeCore env t bytes st

/-- `MemTracker::release` (mem_tracker.h lines 227-252). -/
def release (env : Env) (t : MemTracker) (bytes : Int) (st : MemState) : MemState :=
  if bytes ≤ 0 then
    if bytes < 0 then consumeCore env t (-bytes) st else st
  else releaseCore env t bytes st

/-- Modelled from the spec: `HighWaterMarkCounter::try_add(delta, limit)`
(spec §4.1) — the counter primitive is not among the provided sources.
Sequentially it succeeds, adding `delta`, iff the post-update value is
≤ `limit`, and otherwise leaves the counter untouched. -/
def try_add (st : MemState) (id : TrackerId) (delta lim : Int) : Option MemState :=
  if st.consumption id + delta ≤ lim then some (st.addConsumption id delta) else none

/-- Modelled from the spec: the callback loop of `MemTracker::GcMemory`
(mem_tracker.cpp is not among the provided sources; spec §4.6): invoke each
registered callback in registration order with
`bytes_to_free = current - max_consumption`, re-reading the consumption before
each call.  Returns the final state together with the list of `bytes_to_free`
arguments passed, in invocation order. -/
def runGcFns (id : TrackerId) (maxC : Int) : List GcFn → MemState → MemState × List Int
  | [], st => (st, [])
  | f :: fs, st =>
    let b := st.consumption id - maxC
    let next := runGcFns id maxC fs (f b st)
    (next.1, b :: next.2)

/-- Modelled from the spec: `MemTracker::GcMemory(max_consumption)`
(mem_tracker.h lines 372-375 declare it; the body in mem_tracker.cpp is not
among the provided sources; spec §4.6).  Under the node's GC lock, re-read the
consumption; if it is already ≤ `max_consumption` return false immediately,
otherwise run every registered callback and report whether the consumption is
still above `max_consumption`. -/
def GcMemory (env : Env) (id : TrackerId) (maxC : Int) (st : MemState) : MemState × Bool :=
  if st.consumption id ≤ maxC then (st, false)
  else
    ((runGcFns id maxC (env.gcFns id) st).1,
      if maxC < (runGcFns id maxC (env.gcFns id) st).1.consumption id then true else false)

/-- The `bytes_to_free` arguments a `GcMemory` call passes to the node's
callbacks, in invocation order. -/
def gcTrace (env : Env) (id : TrackerId) (maxC : Int) (st : MemState) : List Int :=
  if st.consumption id ≤ maxC then [] else (runGcFns id maxC (env.gcFns id) st).2

/-- The `while (true)` loop of `MemTracker::try_consume` at one finite-limit
chain entry (mem_tracker.h lines 202-218), with explicit fuel: `try_add`; on
failure `GcMemory(limit - bytes)`; on "still over" give up carrying the current
state; otherwise retry.  Sequentially a successful GC makes the retried
`try_add` succeed, so the loop is decided within fuel 2 (`tryAddGcLoop_stable`
below); `try_consume` runs it with fuel 2. -/
def tryAddGcLoop (env : Env) (bytes : Int) (id : TrackerId) (lim : Int) :
    Nat → MemState → Except MemState MemState
  | 0, st => .error st
  | fuel + 1, st =>
    match try_add st id bytes lim with
    | some st1 => .ok st1
    | none =>
      match GcMemory env id (lim - bytes) st with
      | (st2, true) => .error st2
      | (st2, false) => tryAddGcLoop env bytes id lim fuel st2

/-- The rollback loop of `try_consume` (mem_tracker.h lines 211-213): undo the
chain entries already credited, in the order they were credited. -/
def rollbackAll (bytes : Int) (done : List TrackerId) (st : MemState) : MemState :=
  done.foldl (fun s id => s.addConsumption id (-bytes)) st

/-- The top-down walk of `MemTracker::try_consume` (mem_tracker.h lines
191-220) over the remaining chain entries; `done` lists the entries already
credited, root end first.  Each entry's `limit` is read once, as in the
source. -/
def tryConsumeWalk (env : Env) (bytes : Int) :
    List TrackerId → List TrackerId → MemState → MemState × Bool
  | [], _, st => (st, true)
  | id :: rest, done, st =>
    if st.limit id < 0 then
      tryConsumeWalk env bytes rest (done ++ [id]) (st.addConsumption id bytes)
    else
      match tryAddGcLoop env bytes id (st.limit id) 2 st with
      | .ok st1 => tryConsumeWalk env bytes rest (done ++ [id]) st1
      | .error st1 => (rollbackAll bytes done st1, false)

/-- `MemTracker::try_consume` (mem_tracker.h lines 188-224).  The for-loop runs
from the root end of `_all_trackers` (index `size-1`) down to self (index 0),
hence the walk is over the reversed chain. -/
def try_consume (env : Env) (t : MemTracker) (bytes : Int) (st : MemState) : MemState × Bool :=
  if bytes ≤ 0 then (st, true)
  else
    let st0 := match env.metric t.id with
      | some _ => RefreshConsumptionFromMetric env t st
      | none => st
    tryConsumeWalk env bytes t.all_trackers.reverse [] st0

/-- The loop of `MemTracker::consume_local` (mem_tracker.h lines 150-155).
The returned Bool records whether the loop fell off the end of the chain,
i.e. whether the debug assertion `"end_tracker is not an ancestor"` on
line 155 is reached. -/
def consumeLocalWalk (bytes : Int) (endId : TrackerId) :
    List TrackerId → MemState → MemState × Bool
  | [], st => (st, true)
  | id :: rest, st =>
    if id = endId then (st, false)
    else consumeLocalWalk bytes endId rest (st.addConsumption id bytes)

/-- `MemTracker::consume_local` (mem_tracker.h lines 148-156).  The pointer
comparison `_all_trackers[i] == end_tracker` becomes id equality. -/
def consume_local (t : MemTracker) (bytes : Int) (endT : MemTracker) (st : MemState) :
    MemState × Bool :=
  consumeLocalWalk bytes endT.id t.all_trackers st

/-- `MemTracker::release_local` (mem_tracker.h line 158). -/
def release_local (t : MemTracker) (bytes : Int) (endT : MemTracker) (st : MemState) :
    MemState × Bool :=
  consume_local t (-bytes) endT st

/-- `MemTracker::set_limit` (mem_tracker.h line 299): writes `_limit` only; the
precomputed chains of every node are untouched. -/
def set_limit (t : MemTracker) (l : Int) (st : MemState) : MemState :=
  st.setLimit t.id l

/-- `MemTracker::limit_exceeded` for the node with the given id (mem_tracker.h
line 297): `_limit >= 0 && _limit < consumption()`. -/
def limit_exceededId (id : TrackerId) (st : MemState) : Bool :=
  decide (0 ≤ st.limit id) && decide (st.limit id < st.consumption id)

/-- `MemTracker::limit_exceeded` (mem_tracker.h line 297). -/
def limit_exceeded (t : MemTracker) (st : MemState) : Bool :=
  limit_exceededId t.id st

/-- `MemTracker::any_limit_exceeded` (mem_tracker.h lines 255-263). -/
def any_limit_exceeded (t : MemTracker) (st : MemState) : Bool :=
  t.limit_trackers.any (fun id => limit_exceededId id st)

/-- `MemTracker::find_limit_exceeded_tracker` (mem_tracker.h lines 266-274). -/
def find_limit_exceeded_tracker (t : MemTracker) (st : MemState) : Option TrackerId :=
  t.limit_trackers.find? (fun id => limit_exceededId id st)

/-- `std::numeric_limits<int64_t>::max()`. -/
def int64Max : Int := 9223372036854775807

/-- `MemTracker::spare_capacity` (mem_tracker.h lines 279-287): fold `min` of
`limit() - consumption()` over `_limit_trackers`, starting from int64 max. -/
def spare_capacity (t : MemTracker) (st : MemState) : Int :=
  t.limit_trackers.foldl (fun result id => min result (st.limit id - st.consumption id)) int64Max

/-- `MemTracker::lowest_limit` (mem_tracker.h lines 309-317). -/
def lowest_limit (t : MemTracker) (st : MemState) : Int :=
  if t.limit_trackers.isEmpty then -1
  else t.limit_trackers.foldl (fun v id => min v (st.limit id)) int64Max

/-- The `_limit_trackers` invariant claimed by the spec (§3): the limited chain
is exactly the finite-limit subsequence of the ancestor chain, judged against
the current limits. -/
def limitChainOk (t : MemTracker) (st : MemState) : Prop :=
  t.limit_trackers = t.all_trackers.filter (fun id => decide (0 ≤ st.limit id))

/-! ### Concrete scenarios (spec §8) -/

/-- Environment with no GC callbacks and no external metrics. -/
def envNoGc : Env := ⟨fun _ => [], fun _ => none⟩

/-- S1: root (id 0, no limit) ← child (id 1, no limit); all counters zero. -/
def stS1 : MemState := ⟨fun _ => 0, fun _ => -1⟩

/-- The child of scenario S1. -/
def childS1 : MemTracker := ⟨1, [1, 0], []⟩

/-- S2: root (id 0, limit 1000) ← child (id 1, no limit); all counters zero. -/
def stS2 : MemState := ⟨fun _ => 0, fun id => if id = 0 then 1000 else -1⟩

/-- The child of scenario S2. -/
def childS2 : MemTracker := ⟨1, [1, 0], [0]⟩

/-- S3: root (id 0, limit 1000) ← mid (id 1, limit 300) ← leaf (id 2, no
limit); all counters zero. -/
def stS3 : MemState :=
  ⟨fun _ => 0, fun id => if id = 0 then 1000 else if id = 1 then 300 else -1⟩

/-- The leaf of scenario S3. -/
def leafS3 : MemTracker := ⟨2, [2, 1, 0], [1, 0]⟩

/-- A standalone root with id 0 and a finite limit. -/
def rootOnly : MemTracker := ⟨0, [0], [0]⟩

/-- State for the GC scenarios (spec S4/S5): root consumption 900, limit 1000. -/
def stGc : MemState :=
  ⟨fun id => if id = 0 then 900 else 0, fun id => if id = 0 then 1000 else -1⟩

/-- A GC callback on the root (id 0) that frees 200 bytes when invoked (the S4
callback's effect: it calls `root.release(200)` and the root's chain is just
the root). -/
def gcFree200 : GcFn := fun _ s => s.addConsumption 0 (-200)

/-- A GC callback on the root (id 0) that frees only 50 bytes — not enough to
get back under the limit headroom in the S4/S5 setting. -/
def gcFree50 : GcFn := fun _ s => s.addConsumption 0 (-50)

/-- Environment registering `gcFree200` on the root. -/
def envGcFrees200 : Env :=
  ⟨fun id => if id = 0 then [gcFree200] else [], fun _ => none⟩

/-- Environment registering `gcFree50` on the root. -/
def envGcFrees50 : Env :=
  ⟨fun id => if id = 0 then [gcFree50] else [], fun _ => none⟩

/-- State with 100 bytes charged at ids 0 and 1 and no limits. -/
def stBoth100 : MemState := ⟨fun id => if id ≤ 1 then 100 else 0, fun _ => -1⟩

/-- A standalone limited tracker whose limit is already exceeded. -/
def negCapT : MemTracker := ⟨3, [3], [3]⟩

/-- State in which `negCapT` consumes 15 against a limit of 10. -/
def negCapSt : MemState := ⟨fun _ => 15, fun _ => 10⟩

/-- Environment binding an external consumption metric with current value 555
to the root (id 0); no GC callbacks. -/
def envMetric555 : Env := ⟨fun _ => [], fun id => if id = 0 then some 555 else none⟩

/-! ### Basic state lemmas -/

theorem addConsumption_consumption (st : MemState) (x : TrackerId) (b : Int) (id : TrackerId) :
    (st.addConsumption x b).consumption id =
      if id = x then st.consumption id + b else st.consumption id := rfl

theorem addConsumption_limit (st : MemState) (x : TrackerId) (b : Int) :
    (st.addConsumption x b).limit = st.limit := rfl

theorem addToAll_nil (b : Int) (st : MemState) : addToAll [] b st = st := rfl

theorem addToAll_cons (x : TrackerId) (l : List TrackerId) (b : Int) (st : MemState) :
    addToAll (x :: l) b st = addToAll l b (st.addConsumption x b) := rfl

theorem addToAll_append (l₁ l₂ : List TrackerId) (b : Int) (st : MemState) :
    addToAll (l₁ ++ l₂) b st = addToAll l₂ b (addToAll l₁ b st) :=
  List.foldl_append _ _ _ _

theorem addToAll_limit (l : List TrackerId) (b : Int) (st : MemState) :
    (addToAll l b st).limit = st.limit := by
  induction l generalizing st with
  | nil => rfl
  | cons x xs ih => rw [addToAll_cons, ih]; rfl

theorem addToAll_consumption (l : List TrackerId) (b : Int) (st : MemState) (id : TrackerId) :
    (addToAll l b st).consumption id = st.consumption id + b * (l.count id : Int) := by
  induction l generalizing st with
  | nil => simp [addToAll]
  | cons x xs ih =>
    rw [addToAll_cons, ih, addConsumption_consumption]
    rcases eq_or_ne id x with rfl | h
    · simp only [List.count_cons, beq_self_eq_true, if_true, if_pos rfl]
      push_cast
      ring
    · have hbeq : (x == id) = false := by simpa using (Ne.symm h)
      simp only [List.count_cons, hbeq, if_false, if_neg h]
      push_cast
      ring

theorem rollbackAll_eq (b : Int) (done : List TrackerId) (st : MemState) :
    rollbackAll b done st = addToAll done (-b) st := rfl

theorem rollback_cancels (b : Int) (done : List TrackerId) (st0 : MemState) (id : TrackerId) :
    (rollbackAll b done (addToAll done b st0)).consumption id = st0.consumption id := by
  rw [rollbackAll_eq, addToAll_consumption, addToAll_consumption]
  ring

/-! ### `try_add` and `GcMemory` lemmas -/

theorem try_add_some (st : MemState) (id : TrackerId) (delta lim : Int)
    (h : st.consumption id + delta ≤ lim) :
    try_add st id delta lim = some (st.addConsumption id delta) := by
  simp [try_add, h]

theorem try_add_none (st : MemState) (id : TrackerId) (delta lim : Int)
    (h : ¬ st.consumption id + delta ≤ lim) :
    try_add st id delta lim = none := by
  simp [try_add, h]

theorem GcMemory_noGc (env : Env) (id : TrackerId) (maxC : Int) (st : MemState)
    (h : env.gcFns id = []) :
    GcMemory env id maxC st = (st, decide (maxC < st.consumption id)) := by
  unfold GcMemory
  rw [h]
  by_cases hc : st.consumption id ≤ maxC
  · have : ¬ maxC < st.consumption id := not_lt.mpr hc
    simp [hc, this]
  · have : maxC < st.consumption id := not_le.mp hc
    simp [hc, runGcFns, this]

theorem GcMemory_false_le (env : Env) (id : TrackerId) (maxC : Int) (st st2 : MemState)
    (h : GcMemory env id maxC st = (st2, false)) :
    st2.consumption id ≤ maxC := by
  unfold GcMemory at h
  by_cases hc : st.consumption id ≤ maxC
  · rw [if_pos hc] at h
    have h1 : st = st2 := congrArg Prod.fst h
    rw [← h1]
    exact hc
  · rw [if_neg hc] at h
    by_cases hlt : maxC < (runGcFns id maxC (env.gcFns id) st).1.consumption id
    · rw [if_pos hlt] at h
      have := congrArg Prod.snd h
      simp at this
    · rw [if_neg hlt] at h
      have h1 : (runGcFns id maxC (env.gcFns id) st).1 = st2 := congrArg Prod.fst h
      rw [← h1]
      exact not_lt.mp hlt

theorem tryAddGcLoop_unfold (env : Env) (bytes : Int) (id : TrackerId) (lim : Int)
    (f : Nat) (s : MemState) :
    tryAddGcLoop env bytes id lim (f + 1) s =
      match try_add s id bytes lim with
      | some s1 => .ok s1
      | none =>
        match GcMemory env id (lim - bytes) s with
        | (s2, true) => .error s2
        | (s2, false) => tryAddGcLoop env bytes id lim f s2 := rfl

/-- Sequentially, a `GcMemory` round that reports success leaves the consumption
at or below `limit - bytes`, so the retried `try_add` succeeds: the inner
`while (true)` loop of `try_consume` is decided within two iterations, and the
fuel-2 embedding is exact. -/
theorem tryAddGcLoop_stable (env : Env) (bytes : Int) (id : TrackerId) (lim : Int)
    (n : Nat) (st : MemState) :
    tryAddGcLoop env bytes id lim (n + 2) st = tryAddGcLoop env bytes id lim 2 st := by
  rw [show n + 2 = (n + 1) + 1 from rfl, tryAddGcLoop_unfold,
    show (2 : Nat) = 1 + 1 from rfl, tryAddGcLoop_unfold]
  cases htry : try_add st id bytes lim with
  | some st1 => rfl
  | none =>
    rcases hgc : GcMemory env id (lim - bytes) st with ⟨st2, over⟩
    cases over
    · have hle := GcMemory_false_le env id (lim - bytes) st st2 hgc
      have hadd : st2.consumption id + bytes ≤ lim := by omega
      simp only [tryAddGcLoop_unfold, try_add_some st2 id bytes lim hadd]
    · rfl

theorem tryAddGcLoop_noGc (env : Env) (bytes : Int) (id : TrackerId) (lim : Int)
    (st : MemState) (h : env.gcFns id = []) :
    tryAddGcLoop env bytes id lim 2 st =
      if st.consumption id + bytes ≤ lim then .ok (st.addConsumption id bytes)
      else .error st := by
  rw [show (2 : Nat) = 1 + 1 from rfl, tryAddGcLoop_unfold]
  by_cases hfit : st.consumption id + bytes ≤ lim
  · rw [try_add_some st id bytes lim hfit, if_pos hfit]
  · rw [try_add_none st id bytes lim hfit, if_neg hfit, GcMemory_noGc env id _ st h]
    have : lim - bytes < st.consumption id := by omega
    simp [this]

/-! ### The `try_consume` walk without GC callbacks -/

theorem tryConsumeWalk_nil (env : Env) (bytes : Int) (done : List TrackerId) (st : MemState) :
    tryConsumeWalk env bytes [] done st = (st, true) := rfl

theorem tryConsumeWalk_cons (env : Env) (bytes : Int) (x : TrackerId)
    (xs done : List TrackerId) (st : MemState) :
    tryConsumeWalk env bytes (x :: xs) done st =
      if st.limit x < 0 then
        tryConsumeWalk env bytes xs (done ++ [x]) (st.addConsumption x bytes)
      else
        match tryAddGcLoop env bytes x (st.limit x) 2 st with
        | .ok st1 => tryConsumeWalk env bytes xs (done ++ [x]) st1
        | .error st1 => (rollbackAll bytes done st1, false) := rfl

/-- The walk with no GC callbacks on the remaining entries: a true return has
credited exactly the processed entries, a false return has restored the initial
counters, and limits are never written. -/
theorem tryConsumeWalk_noGc (env : Env) (bytes : Int) (l : List TrackerId) :
    ∀ (done : List TrackerId) (st0 : MemState),
      (∀ id ∈ l, env.gcFns id = []) →
      ((tryConsumeWalk env bytes l done (addToAll done bytes st0)).2 = true →
        (tryConsumeWalk env bytes l done (addToAll done bytes st0)).1 =
          addToAll (done ++ l) bytes st0) ∧
      ((tryConsumeWalk env bytes l done (addToAll done bytes st0)).2 = false →
        ∀ id, (tryConsumeWalk env bytes l done (addToAll done bytes st0)).1.consumption id =
          st0.consumption id) ∧
      (tryConsumeWalk env bytes l done (addToAll done bytes st0)).1.limit = st0.limit := by
  induction l with
  | nil =>
    intro done st0 _
    refine ⟨fun _ => ?_, fun h => ?_, ?_⟩
    · rw [List.append_nil]
      rfl
    · exact absurd h (by simp [tryConsumeWalk_nil])
    · rw [tryConsumeWalk_nil, addToAll_limit]
  | cons x xs ih =>
    intro done st0 hgc
    have hgcx : env.gcFns x = [] := hgc x (List.mem_cons_self x xs)
    have hgcxs : ∀ id ∈ xs, env.gcFns id = [] := fun id hid => hgc id (List.mem_cons_of_mem x hid)
    have hlimx : (addToAll done bytes st0).limit x = st0.limit x := by rw [addToAll_limit]
    have hstep : addToAll (done ++ [x]) bytes st0 =
        (addToAll done bytes st0).addConsumption x bytes := by
      rw [addToAll_append]
      rfl
    have hassoc : (done ++ [x]) ++ xs = done ++ (x :: xs) := by simp
    rw [tryConsumeWalk_cons, hlimx]
    by_cases hneg : st0.limit x < 0
    · rw [if_pos hneg, ← hstep]
      have := ih (done ++ [x]) st0 hgcxs
      rw [hassoc] at this
      exact this
    · rw [if_neg hneg, tryAddGcLoop_noGc env bytes x (st0.limit x) _ hgcx]
      by_cases hfit :
          (addToAll done bytes st0).consumption x + bytes ≤ st0.limit x
      · rw [if_pos hfit]
        have heq : (addToAll done bytes st0).addConsumption x bytes =
            addToAll (done ++ [x]) bytes st0 := hstep.symm
        rw [heq]
        have := ih (done ++ [x]) st0 hgcxs
        rw [hassoc] at this
        exact this
      · rw [if_neg hfit]
        refine ⟨fun h => absurd h (by simp), fun _ => ?_, ?_⟩
        · intro id
          exact rollback_cancels bytes done st0 id
        · show (rollbackAll bytes done (addToAll done bytes st0)).limit = st0.limit
          rw [rollbackAll_eq, addToAll_limit, addToAll_limit]

/-- On a true return of the no-GC walk, every finite-limit entry among the
remaining ones was admitted by its `try_add`, so its pre-walk consumption plus
`bytes` fits under its limit. -/
theorem tryConsumeWalk_noGc_bounds (env : Env) (bytes : Int) (l : List TrackerId) :
    ∀ (done : List TrackerId) (st0 : MemState),
      (∀ id ∈ l, env.gcFns id = []) →
      (done ++ l).Nodup →
      (tryConsumeWalk env bytes l done (addToAll done bytes st0)).2 = true →
      ∀ id ∈ l, 0 ≤ st0.limit id → st0.consumption id + bytes ≤ st0.limit id := by
  induction l with
  | nil =>
    intro done st0 _ _ _ id hid
    cases hid
  | cons x xs ih =>
    intro done st0 hgc hnd hres
    have hgcx : env.gcFns x = [] := hgc x (List.mem_cons_self x xs)
    have hgcxs : ∀ id ∈ xs, env.gcFns id = [] := fun id hid => hgc id (List.mem_cons_of_mem x hid)
    have hlimx : (addToAll done bytes st0).limit x = st0.limit x := by rw [addToAll_limit]
    have hstep : addToAll (done ++ [x]) bytes st0 =
        (addToAll done bytes st0).addConsumption x bytes := by
      rw [addToAll_append]
      rfl
    have hassoc : (done ++ [x]) ++ xs = done ++ (x :: xs) := by simp
    have hnd' : ((done ++ [x]) ++ xs).Nodup := by rw [hassoc]; exact hnd
    have hxdone : x ∉ done := by
      rcases List.nodup_append.mp hnd with ⟨-, -, hdisj⟩
      intro hx
      exact hdisj hx (List.mem_cons_self x xs)
    have hconsx : (addToAll done bytes st0).consumption x = st0.consumption x := by
      rw [addToAll_consumption]
      rw [List.count_eq_zero.mpr hxdone]
      ring
    rw [tryConsumeWalk_cons, hlimx] at hres
    by_cases hneg : st0.limit x < 0
    · rw [if_pos hneg, ← hstep] at hres
      intro id hid hlim
      rcases List.mem_cons.mp hid with rfl | hid'
      · omega
      · exact ih (done ++ [x]) st0 hgcxs hnd' hres id hid' hlim
    · rw [if_neg hneg, tryAddGcLoop_noGc env bytes x (st0.limit x) _ hgcx] at hres
      by_cases hfit :
          (addToAll done bytes st0).consumption x + bytes ≤ st0.limit x
      · rw [if_pos hfit] at hres
        rw [hconsx] at hfit
        rw [show (addToAll done bytes st0).addConsumption x bytes =
            addToAll (done ++ [x]) bytes st0 from hstep.symm] at hres
        intro id hid hlim
        rcases List.mem_cons.mp hid with rfl | hid'
        · exact hfit
        · exact ih (done ++ [x]) st0 hgcxs hnd' hres id hid' hlim
      · rw [if_neg hfit] at hres
        exact absurd hres (by simp)

/-! ### `try_consume` specifications without GC callbacks -/

theorem try_consume_pos (env : Env) (t : MemTracker) (bytes : Int) (st : MemState)
    (hb : 0 < bytes) (hm : env.metric t.id = none) :
    try_consume env t bytes st = tryConsumeWalk env bytes t.all_trackers.reverse [] st := by
  unfold try_consume
  rw [if_neg (not_le.mpr hb), hm]

/-- The all-or-nothing dichotomy of `try_consume` for a tracker without an
external metric whose chain carries no GC callbacks. -/
theorem try_consume_noGc_dichotomy (env : Env) (t : MemTracker) (st : MemState) (bytes : Int)
    (hb : 0 < bytes) (hm : env.metric t.id = none)
    (hgc : ∀ id ∈ t.all_trackers, env.gcFns id = [])
    (hnd : t.all_trackers.Nodup) :
    ((try_consume env t bytes st).2 = true ∧
      (∀ id ∈ t.all_trackers,
        (try_consume env t bytes st).1.consumption id = st.consumption id + bytes) ∧
      (∀ id, id ∉ t.all_trackers →
        (try_consume env t bytes st).1.consumption id = st.consumption id) ∧
      (∀ id ∈ t.all_trackers, 0 ≤ st.limit id →
        (try_consume env t bytes st).1.consumption id ≤ st.limit id)) ∨
    ((try_consume env t bytes st).2 = false ∧
      ∀ id, (try_consume env t bytes st).1.consumption id = st.consumption id) := by
  rw [try_consume_pos env t bytes st hb hm]
  have hgcr : ∀ id ∈ t.all_trackers.reverse, env.gcFns id = [] := by
    intro id hid
    exact hgc id (List.mem_reverse.mp hid)
  have hndr : t.all_trackers.reverse.Nodup := List.nodup_reverse.mpr hnd
  have hwalk := tryConsumeWalk_noGc env bytes t.all_trackers.reverse [] st hgcr
  have hbounds := tryConsumeWalk_noGc_bounds env bytes t.all_trackers.reverse [] st hgcr
      (by simpa using hndr)
  rw [addToAll_nil] at hwalk hbounds
  cases hres : (tryConsumeWalk env bytes t.all_trackers.reverse [] st).2 with
  | true =>
    left
    refine ⟨rfl, ?_, ?_, ?_⟩
    · intro id hid
      rw [hwalk.1 hres, List.nil_append, addToAll_consumption,
        List.count_reverse,
        List.count_eq_one_of_mem hnd hid]
      ring
    · intro id hid
      rw [hwalk.1 hres, List.nil_append, addToAll_consumption, List.count_reverse,
        List.count_eq_zero.mpr hid]
      ring
    · intro id hid hlim
      have hfit := hbounds hres id (List.mem_reverse.mpr hid) hlim
      rw [hwalk.1 hres, List.nil_append, addToAll_consumption, List.count_reverse,
        List.count_eq_one_of_mem hnd hid]
      push_cast
      omega
  | false =>
    right
    exact ⟨rfl, hwalk.2.1 hres⟩

/-- Rollback atomicity without GC callbacks: a false return restores every
counter, for any `bytes`. -/
theorem try_consume_false_unchanged (env : Env) (t : MemTracker) (st : MemState) (bytes : Int)
    (hm : env.metric t.id = none) (hgc : ∀ id ∈ t.all_trackers, env.gcFns id = [])
    (hres : (try_consume env t bytes st).2 = false) :
    ∀ id, (try_consume env t bytes st).1.consumption id = st.consumption id := by
  by_cases hb : bytes ≤ 0
  · exfalso
    unfold try_consume at hres
    rw [if_pos hb] at hres
    simp at hres
  · rw [try_consume_pos env t bytes st (not_le.mp hb) hm] at hres ⊢
    have hgcr : ∀ id ∈ t.all_trackers.reverse, env.gcFns id = [] := by
      intro id hid
      exact hgc id (List.mem_reverse.mp hid)
    have hwalk := tryConsumeWalk_noGc env bytes t.all_trackers.reverse [] st hgcr
    rw [addToAll_nil] at hwalk
    exact hwalk.2.1 hres

/-- `try_consume` never writes a `_limit` field when the chain has no GC
callbacks (the callbacks are the only state transformers that could). -/
theorem try_consume_noGc_limit (env : Env) (t : MemTracker) (st : MemState) (bytes : Int)
    (hgc : ∀ id ∈ t.all_trackers, env.gcFns id = []) :
    (try_consume env t bytes st).1.limit = st.limit := by
  by_cases hb : bytes ≤ 0
  · unfold try_consume
    rw [if_pos hb]
  · have hgcr : ∀ id ∈ t.all_trackers.reverse, env.gcFns id = [] := by
      intro id hid
      exact hgc id (List.mem_reverse.mp hid)
    unfold try_consume
    rw [if_neg hb]
    cases hmet : env.metric t.id with
    | none =>
      have hwalk := tryConsumeWalk_noGc env bytes t.all_trackers.reverse [] st hgcr
      rw [addToAll_nil] at hwalk
      exact hwalk.2.2
    | some m =>
      have hwalk := tryConsumeWalk_noGc env bytes t.all_trackers.reverse []
          (RefreshConsumptionFromMetric env t st) hgcr
      rw [addToAll_nil] at hwalk
      exact hwalk.2.2

/-! ### GC callback loop lemmas -/

theorem runGcFns_nil (id : TrackerId) (maxC : Int) (st : MemState) :
    runGcFns id maxC [] st = (st, []) := rfl

theorem runGcFns_snd_cons (id : TrackerId) (maxC : Int) (f : GcFn) (fs : List GcFn)
    (st : MemState) :
    (runGcFns id maxC (f :: fs) st).2 =
      (st.consumption id - maxC) ::
        (runGcFns id maxC fs (f (st.consumption id - maxC) st)).2 := rfl

theorem runGcFns_length (id : TrackerId) (maxC : Int) (fns : List GcFn) (st : MemState) :
    (runGcFns id maxC fns st).2.length = fns.length := by
  induction fns generalizing st with
  | nil => rfl
  | cons f fs ih => rw [runGcFns_snd_cons, List.length_cons, ih, List.length_cons]

theorem runGcFns_trace_antitone (id : TrackerId) (maxC : Int) (fns : List GcFn) (st : MemState)
    (hmono : ∀ f ∈ fns, ∀ b s, (f b s).consumption id ≤ s.consumption id) :
    List.Chain' (fun a b => b ≤ a) (runGcFns id maxC fns st).2 := by
  induction fns generalizing st with
  | nil => simp [runGcFns_nil]
  | cons f fs ih =>
    have hf : ∀ b s, (f b s).consumption id ≤ s.consumption id :=
      hmono f (List.mem_cons_self f fs)
    have hfs : ∀ g ∈ fs, ∀ b s, (g b s).consumption id ≤ s.consumption id :=
      fun g hg => hmono g (List.mem_cons_of_mem f hg)
    rw [runGcFns_snd_cons]
    cases fs with
    | nil => simp [runGcFns_nil]
    | cons g gs =>
      rw [runGcFns_snd_cons]
      refine List.chain'_cons.mpr ⟨?_, ?_⟩
      · have := hf (st.consumption id - maxC) st
        omega
      · rw [← runGcFns_snd_cons]
        exact ih _ hfs

theorem GcMemory_fast_false (env : Env) (id : TrackerId) (maxC : Int) (st : MemState)
    (h : st.consumption id ≤ maxC) :
    GcMemory env id maxC st = (st, false) ∧ gcTrace env id maxC st = [] := by
  constructor
  · unfold GcMemory
    rw [if_pos h]
  · unfold gcTrace
    rw [if_pos h]

/-! ### Minimum-fold lemmas for `spare_capacity` -/

theorem foldl_min_le_init (f : TrackerId → Int) (l : List TrackerId) (a : Int) :
    l.foldl (fun r id => min r (f id)) a ≤ a := by
  induction l generalizing a with
  | nil => exact le_refl a
  | cons x xs ih => exact le_trans (ih (min a (f x))) (min_le_left a (f x))

theorem foldl_min_le_mem (f : TrackerId → Int) (l : List TrackerId) (a : Int) :
    ∀ id ∈ l, l.foldl (fun r id => min r (f id)) a ≤ f id := by
  induction l generalizing a with
  | nil =>
    intro id hid
    cases hid
  | cons x xs ih =>
    intro id hid
    rcases List.mem_cons.mp hid with rfl | hid'
    · exact le_trans (foldl_min_le_init f xs (min a (f id))) (min_le_right a (f id))
    · exact ih (min a (f x)) id hid'

theorem foldl_min_eq_or_mem (f : TrackerId → Int) (l : List TrackerId) (a : Int) :
    l.foldl (fun r id => min r (f id)) a = a ∨
      ∃ id ∈ l, l.foldl (fun r id => min r (f id)) a = f id := by
  induction l generalizing a with
  | nil => exact Or.inl rfl
  | cons x xs ih =>
    rcases ih (min a (f x)) with heq | ⟨id, hid, heq⟩
    · rcases min_choice a (f x) with hmin | hmin
      · exact Or.inl (by rw [List.foldl_cons, heq, hmin])
      · exact Or.inr ⟨x, List.mem_cons_self x xs, by rw [List.foldl_cons, heq, hmin]⟩
    · exact Or.inr ⟨id, List.mem_cons_of_mem x hid, by rw [List.foldl_cons, heq]⟩

/-! ### `consume` and `release` lemmas -/

theorem consume_consumption (env : Env) (t : MemTracker) (b : Int) (st : MemState)
    (id : TrackerId) (hm : env.metric t.id = none) :
    (consume env t b st).consumption id =
      st.consumption id + b * (t.all_trackers.count id : Int) := by
  unfold consume
  by_cases h0 : b ≤ 0
  · by_cases hneg : b < 0
    · rw [if_pos h0, if_pos hneg]
      unfold releaseCore
      rw [hm]
      rw [addToAll_consumption]
      ring
    · have hz : b = 0 := le_antisymm h0 (not_lt.mp hneg)
      rw [if_pos h0, if_neg hneg, hz]
      ring
  · rw [if_neg h0]
    unfold consumeCore
    rw [hm, addToAll_consumption]

theorem release_consumption (env : Env) (t : MemTracker) (b : Int) (st : MemState)
    (id : TrackerId) (hm : env.metric t.id = none) :
    (release env t b st).consumption id =
      st.consumption id - b * (t.all_trackers.count id : Int) := by
  unfold release
  by_cases h0 : b ≤ 0
  · by_cases hneg : b < 0
    · rw [if_pos h0, if_pos hneg]
      unfold consumeCore
      rw [hm, addToAll_consumption]
      ring
    · have hz : b = 0 := le_antisymm h0 (not_lt.mp hneg)
      rw [if_pos h0, if_neg hneg, hz]
      ring
  · rw [if_neg h0]
    unfold releaseCore
    rw [hm, addToAll_consumption]
    ring

theorem consume_limit (env : Env) (t : MemTracker) (b : Int) (st : MemState) :
    (consume env t b st).limit = st.limit := by
  unfold consume releaseCore consumeCore RefreshConsumptionFromMetric
  rcases env.metric t.id with _ | m <;>
    split <;> (try split) <;> simp [addToAll_limit, MemState.setConsumption]

theorem release_limit (env : Env) (t : MemTracker) (b : Int) (st : MemState) :
    (release env t b st).limit = st.limit := by
  unfold release releaseCore consumeCore RefreshConsumptionFromMetric
  rcases env.metric t.id with _ | m <;>
    split <;> (try split) <;> simp [addToAll_limit, MemState.setConsumption]

/-! ### `consume_local` lemmas -/

theorem setConsumption_consumption (st : MemState) (id : TrackerId) (v : Int) (j : TrackerId) :
    (st.setConsumption id v).consumption j = if j = id then v else st.consumption j := rfl

theorem consumeLocalWalk_cons (bytes : Int) (endId x : TrackerId) (xs : List TrackerId)
    (st : MemState) :
    consumeLocalWalk bytes endId (x :: xs) st =
      if x = endId then (st, false)
      else consumeLocalWalk bytes endId xs (st.addConsumption x bytes) := rfl

theorem consumeLocalWalk_mem (bytes : Int) (endId : TrackerId) (l : List TrackerId) :
    ∀ st : MemState, endId ∈ l →
      consumeLocalWalk bytes endId l st =
        (addToAll (l.takeWhile (fun id => decide (id ≠ endId))) bytes st, false) := by
  induction l with
  | nil =>
    intro st hmem
    cases hmem
  | cons x xs ih =>
    intro st hmem
    rw [consumeLocalWalk_cons]
    by_cases hx : x = endId
    · rw [if_pos hx]
      subst hx
      have htw : (x :: xs).takeWhile (fun id => decide (id ≠ x)) = [] := by
        simp [List.takeWhile_cons]
      rw [htw, addToAll_nil]
    · rw [if_neg hx]
      have hmem' : endId ∈ xs := by
        rcases List.mem_cons.mp hmem with h | h
        · exact absurd h.symm hx
        · exact h
      rw [ih _ hmem']
      have htw : (x :: xs).takeWhile (fun id => decide (id ≠ endId)) =
          x :: xs.takeWhile (fun id => decide (id ≠ endId)) := by
        simp [List.takeWhile_cons, hx]
      rw [htw, addToAll_cons]

theorem consumeLocalWalk_not_mem (bytes : Int) (endId : TrackerId) (l : List TrackerId) :
    ∀ st : MemState, endId ∉ l →
      consumeLocalWalk bytes endId l st = (addToAll l bytes st, true) := by
  induction l with
  | nil =>
    intro st _
    rfl
  | cons x xs ih =>
    intro st hmem
    have hx : ¬ x = endId := by
      intro h
      exact hmem (h ▸ List.mem_cons_self x xs)
    rw [consumeLocalWalk_cons, if_neg hx, addToAll_cons]
    exact ih _ (fun h => hmem (List.mem_cons_of_mem x h))

/-! ### metric-path lemmas for `consume` / `release` -/

theorem consume_metric (env : Env) (t : MemTracker) (st : MemState) (bytes m : Int)
    (hb : 0 < bytes) (hm : env.metric t.id = some m) :
    consume env t bytes st = st.setConsumption t.id m := by
  unfold consume consumeCore RefreshConsumptionFromMetric
  rw [if_neg (not_le.mpr hb), hm]
  rfl

theorem release_metric (env : Env) (t : MemTracker) (st : MemState) (bytes m : Int)
    (hb : 0 < bytes) (hm : env.metric t.id = some m) :
    release env t bytes st = st.setConsumption t.id m := by
  unfold release releaseCore RefreshConsumptionFromMetric
  rw [if_neg (not_le.mpr hb), hm]
  rfl

/-! ### `limitChainOk` helpers -/

theorem set_limit_filter_eq (u v : MemTracker) (l : Int) (st : MemState)
    (hiff : (0 ≤ l) ↔ (0 ≤ st.limit v.id)) :
    ∀ id ∈ u.all_trackers,
      (fun id => decide (0 ≤ st.limit id)) id =
        (fun id => decide (0 ≤ (set_limit v l st).limit id)) id := by
  intro id _
  simp only [set_limit, MemState.setLimit]
  by_cases h : id = v.id
  · subst h
    simp only [if_pos rfl]
    exact (decide_eq_decide.mpr hiff).symm
  · simp [h]

/-! ### Claim theorems -/

/-- Counterexample to claim C1 as stated: for the root tracker with a
registered GC callback that frees 200 bytes (the spec's own S4 scenario,
consumption 900, limit 1000), `try_consume(200)` returns true yet leaves the
counter at 900 — not increased by exactly 200 — because the callback's release
is interleaved with the credit.  So the all-or-nothing dichotomy fails for
trackers with GC callbacks. -/
theorem try_consume_gc_breaks_exactness :
    (try_consume envGcFrees200 rootOnly 200 stGc).2 = true ∧
    stGc.consumption 0 = 900 ∧
    (try_consume envGcFrees200 rootOnly 200 stGc).1.consumption 0 = 900 ∧
    ¬ (try_consume envGcFrees200 rootOnly 200 stGc).1.consumption 0 =
        stGc.consumption 0 + 200 :=
  ⟨by decide, by decide, by decide, by decide⟩

/-- Claim C1 (amended): for a tracker without an external metric, with no GC
callback registered anywhere on its (duplicate-free) ancestor chain, a
sequential `try_consume(bytes)` with `bytes > 0` either increases the counter
of every chain entry by exactly `bytes` — leaving every other counter
untouched and no finite-limit entry above its limit — and returns true, or
leaves every counter unchanged and returns false.  In particular the S2
scenario behaves as the claim states: root(limit 1000) ← child(no limit),
`child.try_consume(600)` is true, the following `child.try_consume(500)` is
false, and both consumptions then equal 600. -/
theorem try_consume_all_or_nothing :
    (∀ (env : Env) (t : MemTracker) (st : MemState) (bytes : Int),
      0 < bytes → env.metric t.id = none →
      (∀ id ∈ t.all_trackers, env.gcFns id = []) → t.all_trackers.Nodup →
      ((try_consume env t bytes st).2 = true ∧
        (∀ id ∈ t.all_trackers,
          (try_consume env t bytes st).1.consumption id = st.consumption id + bytes) ∧
        (∀ id, id ∉ t.all_trackers →
          (try_consume env t bytes st).1.consumption id = st.consumption id) ∧
        (∀ id ∈ t.all_trackers, 0 ≤ st.limit id →
          (try_consume env t bytes st).1.consumption id ≤ st.limit id)) ∨
      ((try_consume env t bytes st).2 = false ∧
        ∀ id, (try_consume env t bytes st).1.consumption id = st.consumption id)) ∧
    ((try_consume envNoGc childS2 600 stS2).2 = true ∧
      (try_consume envNoGc childS2 500 (try_consume envNoGc childS2 600 stS2).1).2 = false ∧
      (try_consume envNoGc childS2 500
        (try_consume envNoGc childS2 600 stS2).1).1.consumption 0 = 600 ∧
      (try_consume envNoGc childS2 500
        (try_consume envNoGc childS2 600 stS2).1).1.consumption 1 = 600) :=
  ⟨fun env t st bytes hb hm hgc hnd => try_consume_noGc_dichotomy env t st bytes hb hm hgc hnd,
    by decide, by decide, by decide, by decide⟩

/-- Witness for C1: the dichotomy instantiated at the S2 scenario
(`child.try_consume(600)` on the zeroed tree). -/
theorem try_consume_all_or_nothing_witness :
    ((try_consume envNoGc childS2 600 stS2).2 = true ∧
      (∀ id ∈ childS2.all_trackers,
        (try_consume envNoGc childS2 600 stS2).1.consumption id = stS2.consumption id + 600) ∧
      (∀ id, id ∉ childS2.all_trackers →
        (try_consume envNoGc childS2 600 stS2).1.consumption id = stS2.consumption id) ∧
      (∀ id ∈ childS2.all_trackers, 0 ≤ stS2.limit id →
        (try_consume envNoGc childS2 600 stS2).1.consumption id ≤ stS2.limit id)) ∨
    ((try_consume envNoGc childS2 600 stS2).2 = false ∧
      ∀ id, (try_consume envNoGc childS2 600 stS2).1.consumption id = stS2.consumption id) :=
  try_consume_all_or_nothing.1 envNoGc childS2 stS2 600 (by decide) rfl
    (fun _ _ => rfl) (by decide)

/-- Counterexample to claim C2 as stated: for the root tracker with a GC
callback that frees only 50 bytes (consumption 900, limit 1000),
`try_consume(200)` returns false but the counter ends at 850, not its
pre-call value 900 — the callback's partial free is not rolled back. -/
theorem try_consume_gc_breaks_rollback :
    (try_consume envGcFrees50 rootOnly 200 stGc).2 = false ∧
    stGc.consumption 0 = 900 ∧
    (try_consume envGcFrees50 rootOnly 200 stGc).1.consumption 0 = 850 :=
  ⟨by decide, by decide, by decide⟩

/-- Claim C2 (amended): rollback atomicity holds for a tracker without an
external metric whose ancestor chain carries no GC callbacks: whenever
`try_consume(b)` returns false (sequentially), every counter equals its value
just before the call.  The S3 scenario behaves as the claim states:
root(1000) ← mid(300) ← leaf, `leaf.try_consume(400)` returns false — the
credit already applied at the root during the top-down walk is undone by the
rollback loop — and no counter changed. -/
theorem try_consume_rollback_atomic :
    (∀ (env : Env) (t : MemTracker) (st : MemState) (bytes : Int),
      env.metric t.id = none → (∀ id ∈ t.all_trackers, env.gcFns id = []) →
      (try_consume env t bytes st).2 = false →
      ∀ id, (try_consume env t bytes st).1.consumption id = st.consumption id) ∧
    ((try_consume envNoGc leafS3 400 stS3).2 = false ∧
      (try_consume envNoGc leafS3 400 stS3).1.consumption 0 = 0 ∧
      (try_consume envNoGc leafS3 400 stS3).1.consumption 1 = 0 ∧
      (try_consume envNoGc leafS3 400 stS3).1.consumption 2 = 0) :=
  ⟨fun env t st bytes hm hgc hres => try_consume_false_unchanged env t st bytes hm hgc hres,
    by decide, by decide, by decide, by decide⟩

/-- Witness for C2: the rollback property instantiated at the S3 scenario. -/
theorem try_consume_rollback_atomic_witness :
    ∀ id, (try_consume envNoGc leafS3 400 stS3).1.consumption id = stS3.consumption id :=
  try_consume_rollback_atomic.1 envNoGc leafS3 stS3 400 rfl (fun _ _ => rfl) (by decide)

/-- Claim C3: the reclamation contract of `GcMemory` inside `try_consume`
(`GcMemory` modelled from the spec).  (1) If the consumption is already at or
below `max_consumption`, `GcMemory` returns false immediately and invokes no
callback.  (2) Each registered callback is invoked exactly once per `GcMemory`
round, in registration order (the trace of `bytes_to_free` arguments mirrors
the callback list).  (3) When callbacks do not increase the node's
consumption, the successive `bytes_to_free` arguments are non-increasing.
(4) Within `try_consume`, a finite-limit entry runs `GcMemory` with
`max_consumption = limit - bytes` at most once: if `try_add` succeeds there
is no GC; otherwise one `GcMemory` round decides the entry — a "still over"
report aborts (the only way `try_consume` can return false), and otherwise
the retried `try_add` succeeds and credits `bytes`. -/
theorem gc_memory_contract :
    (∀ (env : Env) (id : TrackerId) (maxC : Int) (st : MemState),
      st.consumption id ≤ maxC →
      GcMemory env id maxC st = (st, false) ∧ gcTrace env id maxC st = []) ∧
    (∀ (id : TrackerId) (maxC : Int) (fns : List GcFn) (st : MemState),
      (runGcFns id maxC fns st).2.length = fns.length) ∧
    (∀ (id : TrackerId) (maxC : Int) (fns : List GcFn) (st : MemState),
      (∀ f ∈ fns, ∀ b s, (f b s).consumption id ≤ s.consumption id) →
      List.Chain' (fun a b => b ≤ a) (runGcFns id maxC fns st).2) ∧
    (∀ (env : Env) (bytes : Int) (id : TrackerId) (lim : Int) (st : MemState),
      (∀ st1, try_add st id bytes lim = some st1 →
        tryAddGcLoop env bytes id lim 2 st = .ok st1) ∧
      (try_add st id bytes lim = none →
        (∀ st2, GcMemory env id (lim - bytes) st = (st2, true) →
          tryAddGcLoop env bytes id lim 2 st = .error st2) ∧
        (∀ st2, GcMemory env id (lim - bytes) st = (st2, false) →
          tryAddGcLoop env bytes id lim 2 st = .ok (st2.addConsumption id bytes)))) := by
  refine ⟨GcMemory_fast_false, runGcFns_length, runGcFns_trace_antitone, ?_⟩
  intro env bytes id lim st
  constructor
  · intro st1 h
    rw [show (2 : Nat) = 1 + 1 from rfl]
    simp only [tryAddGcLoop_unfold, h]
  · intro hnone
    constructor
    · intro st2 h
      rw [show (2 : Nat) = 1 + 1 from rfl]
      simp only [tryAddGcLoop_unfold, hnone, h]
    · intro st2 h
      have hle := GcMemory_false_le env id (lim - bytes) st st2 h
      have hadd : st2.consumption id + bytes ≤ lim := by omega
      rw [show (2 : Nat) = 1 + 1 from rfl]
      simp only [tryAddGcLoop_unfold, hnone, h]
      simp only [try_add_some st2 id bytes lim hadd]

/-- Witness for C3: part (1) at a quiet root, part (3) on the S4 callback
list, and part (4) at the S5-like scenario where the callback frees only 50
bytes and `GcMemory` reports still-over. -/
theorem gc_memory_contract_witness :
    (GcMemory envNoGc 0 5 stS1 = (stS1, false) ∧ gcTrace envNoGc 0 5 stS1 = []) ∧
    List.Chain' (fun a b => b ≤ a) (runGcFns 0 800 [gcFree200] stGc).2 ∧
    tryAddGcLoop envGcFrees50 200 0 1000 2 stGc =
      .error (runGcFns 0 (1000 - 200) (envGcFrees50.gcFns 0) stGc).1 := by
  refine ⟨gc_memory_contract.1 envNoGc 0 5 stS1 (by decide), ?_, ?_⟩
  · refine gc_memory_contract.2.2.1 0 800 [gcFree200] stGc ?_
    intro f hf b s
    rw [List.mem_singleton.mp hf]
    show (s.addConsumption 0 (-200)).consumption 0 ≤ s.consumption 0
    rw [addConsumption_consumption]
    simp
  · exact ((gc_memory_contract.2.2.2 envGcFrees50 200 0 1000 stGc).2
      (try_add_none stGc 0 200 1000 (by decide))).1 _ rfl

/-- Claim C4: balance round-trip — for a tracker without an external metric,
any sequence of balanced `consume(b)`/`release(b)` pairs restores every
counter (the leaf's and every ancestor's) to its pre-sequence value.  The S1
scenario behaves as the claim states: `child.consume(100)` makes both
consumptions 100, and `child.release(100)` returns both to zero. -/
theorem consume_release_balance :
    (∀ (env : Env) (t : MemTracker) (st : MemState) (bs : List Int),
      env.metric t.id = none →
      ∀ id, (bs.foldl (fun s b => release env t b (consume env t b s)) st).consumption id =
        st.consumption id) ∧
    ((consume envNoGc childS1 100 stS1).consumption 1 = 100 ∧
      (consume envNoGc childS1 100 stS1).consumption 0 = 100 ∧
      (release envNoGc childS1 100 (consume envNoGc childS1 100 stS1)).consumption 1 = 0 ∧
      (release envNoGc childS1 100 (consume envNoGc childS1 100 stS1)).consumption 0 = 0) := by
  refine ⟨?_, by decide, by decide, by decide, by decide⟩
  intro env t st bs hm
  induction bs generalizing st with
  | nil => intro id; rfl
  | cons b bsl ih =>
    intro id
    rw [List.foldl_cons, ih, release_consumption env t b _ id hm,
      consume_consumption env t b st id hm]
    ring

/-- Witness for C4: the balanced pair `[100, 250]` at the S1 child restores
every counter. -/
theorem consume_release_balance_witness :
    ∀ id, (([100, 250] : List Int).foldl
        (fun s b => release envNoGc childS1 b (consume envNoGc childS1 b s)) stS1).consumption id =
      stS1.consumption id :=
  consume_release_balance.1 envNoGc childS1 stS1 [100, 250] rfl

/-- Claim C5: sign handling of the charge path — `consume(0)` and `release(0)`
have no effect; `consume(bytes)` with `bytes < 0` behaves exactly as
`release(-bytes)` and symmetrically; and for `bytes > 0` on a node without an
external metric, `consume` adds `bytes` to the counter of every entry of the
ancestor chain (leaving all other counters unchanged) without consulting any
limit. -/
theorem consume_release_sign_handling :
    (∀ (env : Env) (t : MemTracker) (st : MemState), consume env t 0 st = st) ∧
    (∀ (env : Env) (t : MemTracker) (st : MemState), release env t 0 st = st) ∧
    (∀ (env : Env) (t : MemTracker) (st : MemState) (b : Int), b < 0 →
      consume env t b st = release env t (-b) st) ∧
    (∀ (env : Env) (t : MemTracker) (st : MemState) (b : Int), b < 0 →
      release env t b st = consume env t (-b) st) ∧
    (∀ (env : Env) (t : MemTracker) (st : MemState) (b : Int), 0 < b →
      env.metric t.id = none → t.all_trackers.Nodup →
      (∀ id ∈ t.all_trackers, (consume env t b st).consumption id = st.consumption id + b) ∧
      (∀ id, id ∉ t.all_trackers → (consume env t b st).consumption id = st.consumption id)) := by
  refine ⟨?_, ?_, ?_, ?_, ?_⟩
  · intro env t st
    unfold consume
    norm_num
  · intro env t st
    unfold release
    norm_num
  · intro env t st b hb
    unfold consume release
    rw [if_pos hb.le, if_pos hb, if_neg (by omega : ¬ -b ≤ 0)]
  · intro env t st b hb
    unfold consume release
    rw [if_pos hb.le, if_pos hb, if_neg (by omega : ¬ -b ≤ 0)]
  · intro env t st b hb hm hnd
    constructor
    · intro id hid
      rw [consume_consumption env t b st id hm, List.count_eq_one_of_mem hnd hid]
      ring
    · intro id hid
      rw [consume_consumption env t b st id hm, List.count_eq_zero.mpr hid]
      ring

/-- Witness for C5: the negative redirects and the positive charge at the S1
child, all at concrete inputs. -/
theorem consume_release_sign_handling_witness :
    consume envNoGc childS1 (-7) stS1 = release envNoGc childS1 7 stS1 ∧
    release envNoGc childS1 (-7) stS1 = consume envNoGc childS1 7 stS1 ∧
    (∀ id ∈ childS1.all_trackers,
      (consume envNoGc childS1 100 stS1).consumption id = stS1.consumption id + 100) :=
  ⟨consume_release_sign_handling.2.2.1 envNoGc childS1 stS1 (-7) (by decide),
    consume_release_sign_handling.2.2.2.1 envNoGc childS1 stS1 (-7) (by decide),
    (consume_release_sign_handling.2.2.2.2 envNoGc childS1 stS1 100 (by decide) rfl
      (by decide)).1⟩

/-- Claim C6: external-metric isolation — for a root tracker whose consumption
metric is set, `consume(bytes)` and `release(bytes)` with `bytes > 0` set the
tracker's counter to the metric's current value and perform no other counter
update and no propagation (the tracker has no parent). -/
theorem external_metric_isolation :
    ∀ (env : Env) (t : MemTracker) (st : MemState) (bytes m : Int),
      0 < bytes → env.metric t.id = some m → t.all_trackers = [t.id] →
      ((consume env t bytes st).consumption t.id = m ∧
        (∀ j, j ≠ t.id → (consume env t bytes st).consumption j = st.consumption j) ∧
        (release env t bytes st).consumption t.id = m ∧
        (∀ j, j ≠ t.id → (release env t bytes st).consumption j = st.consumption j)) := by
  intro env t st bytes m hb hm _hroot
  rw [consume_metric env t st bytes m hb hm, release_metric env t st bytes m hb hm]
  refine ⟨?_, fun j hj => ?_, ?_, fun j hj => ?_⟩ <;>
    rw [setConsumption_consumption] <;> simp_all

/-- Witness for C6: the metric root with metric value 555 and 100 bytes
charged: the counter snaps to 555 and the id-1 counter is untouched. -/
theorem external_metric_isolation_witness :
    (consume envMetric555 rootOnly 100 stGc).consumption rootOnly.id = 555 ∧
    (∀ j, j ≠ rootOnly.id →
      (consume envMetric555 rootOnly 100 stGc).consumption j = stGc.consumption j) ∧
    (release envMetric555 rootOnly 100 stGc).consumption rootOnly.id = 555 ∧
    (∀ j, j ≠ rootOnly.id →
      (release envMetric555 rootOnly 100 stGc).consumption j = stGc.consumption j) :=
  external_metric_isolation envMetric555 rootOnly stGc 100 555 (by decide) rfl rfl

/-- Counterexample to claim C7 as stated: a root constructed with no limit has
an empty `_limit_trackers`; `set_limit(5)` then gives it a finite limit but
never recomputes the chain, so the limited chain is no longer the finite-limit
subsequence of the ancestor chain — `set_limit` does not preserve the
invariant. -/
theorem set_limit_breaks_limit_chain :
    limitChainOk (mkTracker 0 none stS1) stS1 ∧
    ¬ limitChainOk (mkTracker 0 none stS1) (set_limit (mkTracker 0 none stS1) 5 stS1) :=
  ⟨by unfold limitChainOk; decide, by unfold limitChainOk; decide⟩

/-- Claim C7 (amended): `_limit_trackers` is the finite-limit subsequence of
`_all_trackers` as of construction time: construction establishes the
invariant (root and child cases), and it is preserved by every operation that
leaves the `_limit` fields unchanged — `consume`, `release`, and `try_consume`
on chains without GC callbacks — and by `set_limit` exactly when the new limit
has the same finiteness (`≥ 0` versus `< 0`) as the old one.  A `set_limit`
that changes finiteness breaks the invariant (see the counterexample), so the
limited-chain queries consult the construction-time finite-limit ancestors,
not necessarily the current ones. -/
theorem limit_chain_invariant :
    (∀ (st : MemState) (id : TrackerId), limitChainOk (mkTracker id none st) st) ∧
    (∀ (st : MemState) (id : TrackerId) (p : MemTracker),
      limitChainOk p st → limitChainOk (mkTracker id (some p) st) st) ∧
    (∀ (env : Env) (t u : MemTracker) (bytes : Int) (st : MemState),
      limitChainOk u st → limitChainOk u (consume env t bytes st)) ∧
    (∀ (env : Env) (t u : MemTracker) (bytes : Int) (st : MemState),
      limitChainOk u st → limitChainOk u (release env t bytes st)) ∧
    (∀ (env : Env) (t u : MemTracker) (bytes : Int) (st : MemState),
      (∀ id ∈ t.all_trackers, env.gcFns id = []) →
      limitChainOk u st → limitChainOk u (try_consume env t bytes st).1) ∧
    (∀ (u v : MemTracker) (l : Int) (st : MemState),
      limitChainOk u st → ((0 ≤ l) ↔ (0 ≤ st.limit v.id)) →
      limitChainOk u (set_limit v l st)) := by
  refine ⟨?_, ?_, ?_, ?_, ?_, ?_⟩
  · intro st id
    unfold limitChainOk mkTracker
    by_cases h : 0 ≤ st.limit id <;> simp [List.filter_cons, h]
  · intro st id p hp
    unfold limitChainOk mkTracker
    unfold limitChainOk at hp
    by_cases h : 0 ≤ st.limit id <;> simp [List.filter_cons, h, hp]
  · intro env t u bytes st h
    unfold limitChainOk at h ⊢
    rw [consume_limit env t bytes st]
    exact h
  · intro env t u bytes st h
    unfold limitChainOk at h ⊢
    rw [release_limit env t bytes st]
    exact h
  · intro env t u bytes st hgc h
    unfold limitChainOk at h ⊢
    rw [try_consume_noGc_limit env t st bytes hgc]
    exact h
  · intro u v l st h hiff
    unfold limitChainOk at h ⊢
    rw [h]
    exact List.filter_congr (set_limit_filter_eq u v l st hiff)

/-- Witness for C7: the invariant at a limited root under a same-finiteness
`set_limit`, under `consume`, and under a no-GC `try_consume`. -/
theorem limit_chain_invariant_witness :
    limitChainOk (mkTracker 0 none stS2) (set_limit rootOnly 7 stS2) ∧
    limitChainOk (mkTracker 0 none stS2) (consume envNoGc childS2 50 stS2) ∧
    limitChainOk (mkTracker 0 none stS2) (try_consume envNoGc childS2 50 stS2).1 :=
  ⟨limit_chain_invariant.2.2.2.2.2 (mkTracker 0 none stS2) rootOnly 7 stS2
      (by unfold limitChainOk; decide) (by decide),
    limit_chain_invariant.2.2.1 envNoGc childS2 (mkTracker 0 none stS2) 50 stS2
      (by unfold limitChainOk; decide),
    limit_chain_invariant.2.2.2.2.1 envNoGc childS2 (mkTracker 0 none stS2) 50 stS2
      (fun _ _ => rfl) (by unfold limitChainOk; decide)⟩

/-- Claim C8: `consume_local` — when `end_tracker` appears in the caller's
ancestor chain, the loop adds `bytes` to every chain entry strictly before
`end_tracker`'s (first) position and leaves through the early `return`, so the
debug assertion `"end_tracker is not an ancestor"` is not reached; the
assertion is reached exactly when `end_tracker` is absent from the chain (in
which case every entry is updated), so it is not dead code in that case. -/
theorem consume_local_contract :
    (∀ (t : MemTracker) (bytes : Int) (endT : MemTracker) (st : MemState),
      endT.id ∈ t.all_trackers →
      consume_local t bytes endT st =
        (addToAll (t.all_trackers.takeWhile (fun id => decide (id ≠ endT.id))) bytes st,
          false)) ∧
    (∀ (t : MemTracker) (bytes : Int) (endT : MemTracker) (st : MemState),
      endT.id ∉ t.all_trackers →
      consume_local t bytes endT st = (addToAll t.all_trackers bytes st, true)) :=
  ⟨fun t bytes endT st hmem => consumeLocalWalk_mem bytes endT.id t.all_trackers st hmem,
    fun t bytes endT st hmem => consumeLocalWalk_not_mem bytes endT.id t.all_trackers st hmem⟩

/-- Witness for C8: the S1 child transferring 50 bytes with the root (id 0) as
`end_tracker` takes the early return (assertion unreached), while an unrelated
`end_tracker` (id 7) reaches the assertion. -/
theorem consume_local_contract_witness :
    consume_local childS1 50 rootOnly stS1 =
      (addToAll (childS1.all_trackers.takeWhile (fun id => decide (id ≠ rootOnly.id))) 50 stS1,
        false) ∧
    consume_local childS1 50 negCapT stS1 =
      (addToAll childS1.all_trackers 50 stS1, true) :=
  ⟨consume_local_contract.1 childS1 50 rootOnly stS1 (by decide),
    consume_local_contract.2 childS1 50 negCapT stS1 (by decide)⟩

/-- Claim C9: `spare_capacity` returns the minimum over the limited ancestor
chain of `limit - consumption` — it is a lower bound of every such difference
and is attained at some chain entry (given int64-representable differences) —
returns `INT64_MAX` when the limited chain is empty, and can be negative when
a limit is already exceeded. -/
theorem spare_capacity_spec :
    (∀ (t : MemTracker) (st : MemState), t.limit_trackers = [] →
      spare_capacity t st = int64Max) ∧
    (∀ (t : MemTracker) (st : MemState), ∀ id ∈ t.limit_trackers,
      spare_capacity t st ≤ st.limit id - st.consumption id) ∧
    (∀ (t : MemTracker) (st : MemState), t.limit_trackers ≠ [] →
      (∀ id ∈ t.limit_trackers, st.limit id - st.consumption id ≤ int64Max) →
      ∃ id ∈ t.limit_trackers, spare_capacity t st = st.limit id - st.consumption id) ∧
    spare_capacity negCapT negCapSt < 0 := by
  refine ⟨?_, ?_, ?_, by decide⟩
  · intro t st h
    unfold spare_capacity
    rw [h]
    rfl
  · intro t st id hid
    exact foldl_min_le_mem _ _ _ id hid
  · intro t st hne hle
    rcases foldl_min_eq_or_mem (fun id => st.limit id - st.consumption id)
        t.limit_trackers int64Max with heq | ⟨id, hid, heq⟩
    · obtain ⟨x, xs, hl⟩ := List.exists_cons_of_ne_nil hne
      have hx : x ∈ t.limit_trackers := by
        rw [hl]
        exact List.mem_cons_self x xs
      refine ⟨x, hx, ?_⟩
      have h1 : spare_capacity t st ≤ st.limit x - st.consumption x :=
        foldl_min_le_mem _ _ _ x hx
      have h2 : st.limit x - st.consumption x ≤ int64Max := hle x hx
      have h3 : spare_capacity t st = int64Max := heq
      omega
    · exact ⟨id, hid, heq⟩

/-- Witness for C9: at the exceeded tracker (limit 10, consumption 15) the
minimum is attained and bounds the single chain entry; the empty chain gives
`INT64_MAX`. -/
theorem spare_capacity_spec_witness :
    spare_capacity ⟨4, [4], []⟩ stS1 = int64Max ∧
    spare_capacity negCapT negCapSt ≤ negCapSt.limit 3 - negCapSt.consumption 3 ∧
    ∃ id ∈ negCapT.limit_trackers,
      spare_capacity negCapT negCapSt = negCapSt.limit id - negCapSt.consumption id :=
  ⟨spare_capacity_spec.1 ⟨4, [4], []⟩ stS1 rfl,
    spare_capacity_spec.2.1 negCapT negCapSt 3 (by decide),
    spare_capacity_spec.2.2.1 negCapT negCapSt (by decide) (by decide)⟩

/-- Claim C10: for every tracker and every `bytes ≤ 0`, `try_consume(bytes)`
returns true immediately and leaves every counter unchanged; unlike
`consume`, a negative argument is not redirected to `release` and frees
nothing — at the S1 child with 100 bytes charged, `consume(-100)` zeroes the
counters while `try_consume(-100)` leaves them at 100. -/
theorem try_consume_nonpositive_noop :
    (∀ (env : Env) (t : MemTracker) (bytes : Int) (st : MemState), bytes ≤ 0 →
      try_consume env t bytes st = (st, true)) ∧
    ((consume envNoGc childS1 (-100) stBoth100).consumption 1 = 0 ∧
      (consume envNoGc childS1 (-100) stBoth100).consumption 0 = 0 ∧
      (try_consume envNoGc childS1 (-100) stBoth100).1.consumption 1 = 100 ∧
      (try_consume envNoGc childS1 (-100) stBoth100).1.consumption 0 = 100 ∧
      (try_consume envNoGc childS1 (-100) stBoth100).2 = true) := by
  refine ⟨?_, by decide, by decide, by decide, by decide, by decide⟩
  intro env t bytes st h
  unfold try_consume
  rw [if_pos h]

/-- Witness for C10: `try_consume(-100)` at the charged S1 child is a no-op
returning true. -/
theorem try_consume_nonpositive_noop_witness :
    try_consume envNoGc childS1 (-100) stBoth100 = (stBoth100, true) :=
  try_consume_nonpositive_noop.1 envNoGc childS1 (-100) stBoth100 (by decide)

end StarRocks
